import Mathlib

/-
Verification of the IUE spectral-record decoder in Mast.py (GetIUEDataset,
lines 152-230) and the line-splitting stage of the fetch (line 166).

Modelling conventions:
* Python strings are `List Char`; Python floats are `ℚ` (the decoder only
  performs exact decimal parsing, multiplication and addition; non-finite
  literals such as inf/nan are outside the model).
* Python exceptions are `Except PyErr`: `IndexError` from out-of-range
  indexing (`data[18]`, `split(...)[1]`, `del l[i]`) and `ValueError` from
  `float(...)` / `int(...)`, which carries the offending token text.
* `str.split(sep)` with an explicit separator, `str.strip()`, `float(str)`
  and `int(str)` are modelled character-exactly below.
-/

namespace Mast

/-- Python exceptions raised by the decoder: IndexError from out-of-range
indexing, ValueError from numeric conversion (carrying the token text). -/
inductive PyErr where
  | indexError : PyErr
  | valueError : List Char → PyErr
deriving DecidableEq

/-- The two record layouts distinguished at Mast.py line 168. -/
inductive Layout where
  | low : Layout
  | high : Layout
deriving DecidableEq

/-- The decoder's result: the tuple `wav, flux, flux_std_dev` of line 230. -/
abbrev Triple := List ℚ × List ℚ × List ℚ

instance {ε α : Type} [DecidableEq ε] [DecidableEq α] : DecidableEq (Except ε α) := fun a b =>
  match a, b with
  | .ok x, .ok y => decidable_of_iff (x = y) (by simp)
  | .error e, .error f => decidable_of_iff (e = f) (by simp)
  | .ok _, .error _ => isFalse (by simp)
  | .error _, .ok _ => isFalse (by simp)

/-- Python `s.split(sep)` with an explicit one-character separator: splits at
every occurrence, keeping empty segments; the result is never empty. -/
def pySplit (sep : Char) : List Char → List (List Char)
  | [] => [[]]
  | c :: cs =>
    match pySplit sep cs with
    | [] => [[]]
    | t :: ts => if c = sep then [] :: t :: ts else (c :: t) :: ts

/-- The characters Python `str.strip()` removes (string whitespace). -/
def isPySpace (c : Char) : Bool :=
  c = ' ' || c = '\t' || c = '\n' || c = '\r' || c = '\x0b' || c = '\x0c'

/-- Python `s.strip()`: drop whitespace from both ends. -/
def pyStrip (s : List Char) : List Char :=
  ((s.dropWhile isPySpace).reverse.dropWhile isPySpace).reverse

/-- Numeric value of a digit run (most significant first). -/
def digitsVal (ds : List Char) : ℕ :=
  ds.foldl (fun a c => a * 10 + (c.toNat - 48)) 0

/-- Optional sign: returns (isNegative, rest). -/
def parseSign : List Char → Bool × List Char
  | '+' :: r => (false, r)
  | '-' :: r => (true, r)
  | s => (false, s)

/-- Unsigned decimal mantissa: `digits [. digits]` or `. digits`; at least one
digit must be present.  Returns the value and the unconsumed rest. -/
def parseMant (s : List Char) : Option (ℚ × List Char) :=
  let ip := s.takeWhile Char.isDigit
  let r1 := s.dropWhile Char.isDigit
  match r1 with
  | '.' :: r2 =>
    let fp := r2.takeWhile Char.isDigit
    let r3 := r2.dropWhile Char.isDigit
    if ip.isEmpty && fp.isEmpty then none
    else some ((digitsVal ip : ℚ) + (digitsVal fp : ℚ) / ((10 : ℚ) ^ fp.length), r3)
  | _ => if ip.isEmpty then none else some ((digitsVal ip : ℚ), r1)

/-- Optional exponent part `e[sign]digits`; absent exponent is 0. -/
def parseExp : List Char → Option (ℤ × List Char)
  | 'e' :: r | 'E' :: r =>
    let (neg, r1) := parseSign r
    let ds := r1.takeWhile Char.isDigit
    let r2 := r1.dropWhile Char.isDigit
    if ds.isEmpty then none
    else some (if neg then -(digitsVal ds : ℤ) else (digitsVal ds : ℤ), r2)
  | s => some (0, s)

/-- Python `float(s)` on finite decimal literals: strip, optional sign,
mantissa, optional exponent, and nothing may remain. -/
def pyFloat (s : List Char) : Option ℚ :=
  let t := pyStrip s
  let (neg, r0) := parseSign t
  match parseMant r0 with
  | none => none
  | some (m, r1) =>
    match parseExp r1 with
    | none => none
    | some (e, r2) =>
      if r2.isEmpty then some ((if neg then -m else m) * (10 : ℚ) ^ e)
      else none

/-- Python `int(s)`: strip, optional sign, digits only. -/
def pyInt (s : List Char) : Option ℤ :=
  let t := pyStrip s
  let (neg, r0) := parseSign t
  let ds := r0.takeWhile Char.isDigit
  let r1 := r0.dropWhile Char.isDigit
  if ds.isEmpty || !r1.isEmpty then none
  else some (if neg then -(digitsVal ds : ℤ) else (digitsVal ds : ℤ))

/-- Mast.py line 166: split the decompressed payload on newlines and strip
each line (`[x.strip() for x in text.split(chr 10)]`). -/
def fetchLines (text : List Char) : List (List Char) :=
  (pySplit ('\n') text).map pyStrip

/-- Mast.py lines 184-186: re-join the whitespace-separated entries of a line
with single spaces (`chr 32 .join(filter(None, line.split(chr 32)))`). -/
def normLine (line : List Char) : List Char :=
  List.intercalate [' '] ((pySplit (' ') line).filter (fun e => !e.isEmpty))

/-- `float(x.split(chr 32)[i])` for one line `x`: IndexError when the token is
missing, ValueError (with the token) when it is not numeric. -/
def floatTok (x : List Char) (i : ℕ) : Except PyErr ℚ :=
  match (pySplit (' ') x).get? i with
  | none => .error .indexError
  | some t =>
    match pyFloat t with
    | none => .error (.valueError t)
    | some q => .ok q

/-- One inner list comprehension of Mast.py line 188/208: parse token `i` of
every line, failing on the first bad line. -/
def colParse (lines : List (List Char)) (i : ℕ) : Except PyErr (List ℚ) :=
  match lines with
  | [] => .ok []
  | x :: xs =>
    match floatTok x i with
    | .error e => .error e
    | .ok q =>
      match colParse xs i with
      | .error e => .error e
      | .ok qs => .ok (q :: qs)

/-- Python `del l[i]` (with `i ≥ 0`): IndexError when out of range. -/
def pyDel (l : List ℚ) (i : ℕ) : Except PyErr (List ℚ) :=
  if i < l.length then .ok (l.eraseIdx i) else .error .indexError

/-- The while loop of Mast.py lines 219-228, with `fuel = ln - i`:
`ln - i` strictly decreases by one on every iteration (deleting decrements
`ln` and keeps `i`; otherwise `i` increments), so `fuel = 0` is exactly the
loop exit condition `i >= ln` when entered via `compact`. -/
def compactGo : ℕ → ℕ → List ℚ → List ℚ → List ℚ → Except PyErr Triple
  | 0, _, flux, flux_std_dev, wav => .ok (wav, flux, flux_std_dev)
  | fuel + 1, i, flux, flux_std_dev, wav =>
    if flux.getD i 0 = -1 then
      match pyDel flux i, pyDel flux_std_dev i, pyDel wav i with
      | .ok f2, .ok s2, .ok w2 => compactGo fuel i f2 s2 w2
      | .error e, _, _ => .error e
      | .ok _, .error e, _ => .error e
      | .ok _, .ok _, .error e => .error e
    else
      compactGo fuel (i + 1) flux flux_std_dev wav

/-- Mast.py lines 219-228: remove every sample whose flux is the sentinel -1
from the three parallel lists (in-place deletion loop). -/
def compact (flux flux_std_dev wav : List ℚ) : Except PyErr Triple :=
  compactGo flux.length 0 flux flux_std_dev wav

/-- Mast.py lines 213-215: parse `wave_start`, `wave_delta` and `k_max`
(already incremented) from the last header line.
`wave_start = float(ws.split(chr 43)[1].split(chr 44)[0])`,
`wave_delta = float(ws.split(chr 42)[0].split(chr 61)[-1].strip())`,
`k_max = int(ws.split(chr 44)[-1].strip()) + 1`. -/
def hiParams (wave_string : List Char) : Except PyErr (ℚ × ℚ × ℤ) :=
  match (pySplit ('+') wave_string).get? 1 with
  | none => .error .indexError
  | some seg =>
    let startTok := (pySplit (',') seg).headD []
    match pyFloat startTok with
    | none => .error (.valueError startTok)
    | some wave_start =>
      let deltaTok := pyStrip ((pySplit ('=') ((pySplit ('*') wave_string).headD [])).getLastD [])
      match pyFloat deltaTok with
      | none => .error (.valueError deltaTok)
      | some wave_delta =>
        let kTok := pyStrip ((pySplit (',') wave_string).getLastD [])
        match pyInt kTok with
        | none => .error (.valueError kTok)
        | some k => .ok (wave_start, wave_delta, k + 1)

/-- Mast.py line 216: `wav = [wave_delta*i + wave_start for i in range(0, k_max)]`. -/
def hiWavList (wave_start wave_delta : ℚ) (k_max : ℤ) : List ℚ :=
  (List.range k_max.toNat).map (fun (i : ℕ) => wave_delta * (i : ℚ) + wave_start)

/-- Mast.py line 168: layout classification from `data[18][0] != chr 119`.
IndexError when fewer than 19 lines or when line 18 is empty. -/
def classify (data : List (List Char)) : Except PyErr Layout :=
  match data.get? 18 with
  | none => .error .indexError
  | some line =>
    match line with
    | [] => .error .indexError
    | c :: _ => .ok (if c ≠ 'w' then .low else .high)

/-- Mast.py lines 180-187: the LowDispersion body `data[18:-1]` with
whitespace runs collapsed. -/
def bodyLow (data : List (List Char)) : List (List Char) :=
  ((data.drop 18).dropLast).map normLine

/-- Mast.py lines 202-207: the HighDispersion body `data[19:-1]` with
whitespace runs collapsed. -/
def bodyHigh (data : List (List Char)) : List (List Char) :=
  ((data.drop 19).dropLast).map normLine

/-- Mast.py lines 180-191 (LowDispersion branch): parse columns 0, 1, 2 of
the body as wav, flux, flux_std_dev. -/
def decodeLow (data : List (List Char)) : Except PyErr Triple :=
  match colParse (bodyLow data) 0, colParse (bodyLow data) 1, colParse (bodyLow data) 2 with
  | .ok wav, .ok flux, .ok flux_std_dev => .ok (wav, flux, flux_std_dev)
  | .error e, _, _ => .error e
  | .ok _, .error e, _ => .error e
  | .ok _, .ok _, .error e => .error e

/-- Mast.py lines 201-228 (HighDispersion branch): parse columns 0, 1, 2 of
the body (column 2 is computed then discarded, as in the source),
reconstruct the wavelength axis from `header[-1]`, then run the sentinel
compaction loop. -/
def decodeHigh (data : List (List Char)) : Except PyErr Triple :=
  match colParse (bodyHigh data) 0, colParse (bodyHigh data) 1, colParse (bodyHigh data) 2 with
  | .ok flux, .ok flux_std_dev, .ok _bg =>
    match hiParams ((data.take 19).getLastD []) with
    | .error e => .error e
    | .ok (wave_start, wave_delta, k_max) =>
      compact flux flux_std_dev (hiWavList wave_start wave_delta k_max)
  | .error e, _, _ => .error e
  | .ok _, .error e, _ => .error e
  | .ok _, .ok _, .error e => .error e

/-- Mast.py lines 168-230: the decode portion of GetIUEDataset, applied to the
already-fetched line list of line 166. -/
def GetIUEDataset (data : List (List Char)) : Except PyErr Triple :=
  match classify data with
  | .error e => .error e
  | .ok .low => decodeLow data
  | .ok .high => decodeHigh data

/-- The flux list after sentinel removal: keep entries different from -1. -/
def keepFlux (flux : List ℚ) : List ℚ :=
  flux.filter (fun x => decide (x ≠ -1))

/-- A parallel list projected through the flux sentinel mask. -/
def keepOther (flux other : List ℚ) : List ℚ :=
  ((flux.zip other).filter (fun p => decide (p.1 ≠ -1))).map Prod.snd

/-- The retained-index list: indices whose flux is not the sentinel. -/
def keptIdx (flux : List ℚ) : List ℕ :=
  (List.range flux.length).filter (fun i => decide (flux.getD i 0 ≠ -1))

/-- Structural form of the compaction: filter three parallel lists by the
flux entry. -/
def filtTriple : List ℚ → List ℚ → List ℚ → Triple
  | f :: fs, s :: ss, w :: ws =>
    let r := filtTriple fs ss ws
    if f = -1 then r else (w :: r.1, f :: r.2.1, s :: r.2.2)
  | _, _, _ => ([], [], [])

end Mast

namespace Mast

/-- A LowDispersion record (line 18 starts with a digit) whose single body
line carries the sentinel flux -1. -/
def exampleLowSentinel : List (List Char) :=
  List.replicate 18 (("h").data) ++ [("100.0 -1 0.5").data, ("end").data]

/-- A HighDispersion record whose header announces k_max = 5 samples but whose
body has only two lines. -/
def exampleHighMismatch : List (List Char) :=
  List.replicate 18 (("h").data) ++
    [("w+1000.0, d=2.0 *, 4").data, ("1.0 0.1 0.0").data, ("2.0 0.2 0.0").data, ("0").data]

/-- A HighDispersion record with k_max = 2 whose two samples are both
sentinel-flagged. -/
def exampleHighAllSentinel : List (List Char) :=
  List.replicate 18 (("h").data) ++
    [("w+1000.0, d=2.0 *, 1").data, ("-1 0.1 0.0").data, ("-1 0.2 0.0").data, ("0").data]

/-- A LowDispersion record whose first body token is not numeric. -/
def exampleBadToken : List (List Char) :=
  List.replicate 18 (("h").data) ++ [("abc 1.0 2.0").data, ("end").data]

/-- A LowDispersion record whose second body token is not numeric. -/
def exampleBadToken2 : List (List Char) :=
  List.replicate 18 (("h").data) ++ [("1.0 xyz 2.0").data, ("end").data]

/-- A HighDispersion record with k_max = 2 whose second of two samples is
sentinel-flagged. -/
def exampleHighMixed : List (List Char) :=
  List.replicate 18 (("h").data) ++
    [("w+1000.0, d=2.0 *, 1").data, ("1.0 0.1 0.0").data, ("-1 0.2 0.0").data, ("0").data]

end Mast

namespace Mast

/-- C5: with line index 18 present and non-empty (first character c), the
record is classified HighDispersion exactly when c is the marker character,
LowDispersion otherwise, and the classification depends on no part of the
input other than that line. -/
theorem c5_layout_classification (data : List (List Char)) (c : Char) (rest : List Char)
    (h : data.get? 18 = some (c :: rest)) :
    (classify data = .ok Layout.high ↔ c = 'w') ∧
    (classify data = .ok Layout.low ↔ c ≠ 'w') ∧
    (∀ data2, data2.get? 18 = some (c :: rest) → classify data2 = classify data) := by
  have hcl : classify data = .ok (if c ≠ 'w' then Layout.low else Layout.high) := by
    unfold classify
    rw [h]
  refine ⟨?_, ?_, ?_⟩
  · rw [hcl]
    by_cases hc : c = 'w' <;> simp [hc]
  · rw [hcl]
    by_cases hc : c = 'w' <;> simp [hc]
  · intro data2 h2
    have hcl2 : classify data2 = .ok (if c ≠ 'w' then Layout.low else Layout.high) := by
      unfold classify
      rw [h2]
    rw [hcl2, hcl]

/-- Witness for C5 at a concrete record: line 18 starts with the marker and
the record classifies as HighDispersion. -/
theorem c5_layout_classification_witness :
    exampleHighMismatch.get? 18 = some (('w') :: (("+1000.0, d=2.0 *, 4").data)) ∧
    classify exampleHighMismatch = .ok Layout.high := by
  refine ⟨by rfl, ?_⟩
  exact (c5_layout_classification exampleHighMismatch ('w') (("+1000.0, d=2.0 *, 4").data)
    (by rfl)).1.mpr rfl

/-- C6 counterexample: an 18-line record makes the decoder raise the
out-of-range IndexError of `data[18]`; no MalformedRecordError exists in the
code (the error type of the model enumerates the exceptions the code can
raise, and this input produces the indexing fault). -/
theorem c6_counterexample :
    GetIUEDataset (List.replicate 18 (("h").data)) = .error PyErr.indexError := by
  rfl

/-- C6 amended: a record with fewer than 19 lines makes decode fail with the
out-of-range IndexError (raised by `data[18]` at line 168), not a
MalformedRecordError. -/
theorem c6_amended_short_record (data : List (List Char)) (h : data.length < 19) :
    GetIUEDataset data = .error PyErr.indexError := by
  have h18 : data.get? 18 = none := List.get?_eq_none.mpr (by omega)
  unfold GetIUEDataset classify
  rw [h18]

/-- Witness for the amended C6 at a concrete 10-line record. -/
theorem c6_amended_short_record_witness :
    (List.replicate 10 (("h").data)).length < 19 ∧
    GetIUEDataset (List.replicate 10 (("h").data)) = .error PyErr.indexError := by
  exact ⟨by decide, c6_amended_short_record _ (by decide)⟩

/-- C10: a record with at least 19 lines whose line 18 is empty makes the
classification step (and hence decode) raise the out-of-range IndexError of
`data[18][0]`; classification needs a non-empty line 18. -/
theorem c10_empty_marker_line (data : List (List Char)) (hlen : 19 ≤ data.length)
    (h : data.get? 18 = some []) :
    classify data = .error PyErr.indexError ∧ GetIUEDataset data = .error PyErr.indexError := by
  have hcl : classify data = .error PyErr.indexError := by
    unfold classify
    rw [h]
  refine ⟨hcl, ?_⟩
  unfold GetIUEDataset
  rw [hcl]

/-- Witness for C10 at the concrete 19-line record of empty lines. -/
theorem c10_empty_marker_line_witness :
    19 ≤ (List.replicate 19 ([] : List Char)).length ∧
    classify (List.replicate 19 ([] : List Char)) = .error PyErr.indexError ∧
    GetIUEDataset (List.replicate 19 ([] : List Char)) = .error PyErr.indexError := by
  exact ⟨by decide, c10_empty_marker_line _ (by decide) (by rfl)⟩

/-- C1 counterexample: a LowDispersion record whose body flux token is the
sentinel -1 decodes successfully with the sentinel still present in the flux
sequence (the LowDispersion branch performs no sentinel removal). -/
theorem c1_counterexample :
    GetIUEDataset exampleLowSentinel = .ok ([(100 : ℚ)], [(-1 : ℚ)], [(1 / 2 : ℚ)]) ∧
    (-1 : ℚ) ∈ [(-1 : ℚ)] := by
  exact ⟨by with_unfolding_all rfl, by decide⟩

/-- C2 counterexample: a HighDispersion record whose header k_max (5) differs
from its body-line count (2) is accepted and returns sequences of unequal
lengths (wavelength has 5 entries, flux and uncertainty have 2). -/
theorem c2_counterexample :
    GetIUEDataset exampleHighMismatch =
      .ok ([(1000 : ℚ), 1002, 1004, 1006, 1008], [(1 : ℚ), 2], [(1 / 10 : ℚ), 1 / 5]) ∧
    ([(1000 : ℚ), 1002, 1004, 1006, 1008].length ≠ [(1 : ℚ), 2].length) := by
  exact ⟨by with_unfolding_all rfl, by decide⟩

/-- C7 counterexample: a non-numeric body token makes decode fail with the
ValueError of `float(...)`, which carries the offending token text but no
line index; the code has no MalformedRecordError. -/
theorem c7_counterexample :
    GetIUEDataset exampleBadToken = .error (PyErr.valueError (("abc").data)) := by
  rfl

/-- C9 counterexample: the fetch stage strips leading whitespace as well:
the line with leading-space text comes back without its leading space, so the
returned line differs from the original line with only trailing whitespace
removed. -/
theorem c9_counterexample :
    fetchLines ((" a\nb").data) = [("a").data, ("b").data] ∧
    ("a").data ≠ (" a").data := by
  exact ⟨by rfl, by decide⟩

end Mast

namespace Mast

theorem colParse_ok_length (lines : List (List Char)) (i : ℕ) (qs : List ℚ)
    (h : colParse lines i = .ok qs) : qs.length = lines.length := by
  induction lines generalizing qs with
  | nil =>
    unfold colParse at h
    cases h
    rfl
  | cons x xs ih =>
    unfold colParse at h
    cases hft : floatTok x i with
    | error e =>
      rw [hft] at h
      cases h
    | ok q =>
      rw [hft] at h
      cases hcp : colParse xs i with
      | error e =>
        rw [hcp] at h
        cases h
      | ok qs2 =>
        rw [hcp] at h
        cases h
        simp [ih qs2 hcp]

theorem colParse_error_of_mem (lines : List (List Char)) (i : ℕ) (x : List Char) (e : PyErr)
    (hx : x ∈ lines) (hf : floatTok x i = .error e) :
    ∃ e2, colParse lines i = .error e2 := by
  induction lines with
  | nil => cases hx
  | cons a as ih =>
    unfold colParse
    cases hfa : floatTok a i with
    | error e2 => exact ⟨e2, rfl⟩
    | ok q =>
      rcases List.mem_cons.mp hx with h | h
      · rw [h] at hf
        rw [hfa] at hf
        cases hf
      · obtain ⟨e2, h2⟩ := ih h
        rw [h2]
        exact ⟨e2, rfl⟩

theorem getD_eraseIdx_of_lt (l : List ℚ) (i j : ℕ) (d : ℚ) (h : j < i) :
    (l.eraseIdx i).getD j d = l.getD j d := by
  induction l generalizing i j with
  | nil => rfl
  | cons x xs ih =>
    cases i with
    | zero => omega
    | succ i2 =>
      cases j with
      | zero => rfl
      | succ j2 =>
        simp only [List.eraseIdx, List.getD_cons_succ]
        exact ih i2 j2 (by omega)

theorem take_eraseIdx_self (l : List ℚ) (i : ℕ) (h : i < l.length) :
    (l.eraseIdx i).take i = l.take i := by
  rw [List.eraseIdx_eq_take_drop_succ, List.take_append_eq_append_take, List.take_take]
  have hlen : (List.take i l).length = i := by
    rw [List.length_take]
    omega
  simp [hlen]

theorem drop_eraseIdx_self (l : List ℚ) (i : ℕ) (h : i < l.length) :
    (l.eraseIdx i).drop i = l.drop (i + 1) := by
  rw [List.eraseIdx_eq_take_drop_succ, List.drop_append_eq_append_drop]
  have hlen : (List.take i l).length = i := by
    rw [List.length_take]
    omega
  simp [hlen, List.drop_eq_nil_of_le]

end Mast

namespace Mast

theorem filtTriple_nil (std wav : List ℚ) : filtTriple [] std wav = ([], [], []) := by
  unfold filtTriple
  cases std <;> cases wav <;> rfl

theorem filtTriple_cons (f : ℚ) (fs : List ℚ) (s : ℚ) (ss : List ℚ) (w : ℚ) (ws : List ℚ) :
    filtTriple (f :: fs) (s :: ss) (w :: ws) =
      if f = -1 then filtTriple fs ss ws
      else (w :: (filtTriple fs ss ws).1, f :: (filtTriple fs ss ws).2.1,
            s :: (filtTriple fs ss ws).2.2) := by
  rfl

theorem compactGo_eq (fuel : ℕ) :
    ∀ (i : ℕ) (flux std wav : List ℚ), flux.length = std.length → flux.length = wav.length →
      fuel = flux.length - i →
      compactGo fuel i flux std wav =
        .ok (wav.take i ++ (filtTriple (flux.drop i) (std.drop i) (wav.drop i)).1,
             flux.take i ++ (filtTriple (flux.drop i) (std.drop i) (wav.drop i)).2.1,
             std.take i ++ (filtTriple (flux.drop i) (std.drop i) (wav.drop i)).2.2) := by
  induction fuel with
  | zero =>
    intro i flux std wav h1 h2 hf
    have hi : flux.length ≤ i := by omega
    rw [List.drop_eq_nil_of_le hi, List.drop_eq_nil_of_le (by omega : std.length ≤ i),
      List.drop_eq_nil_of_le (by omega : wav.length ≤ i), filtTriple_nil,
      List.take_of_length_le hi, List.take_of_length_le (by omega : std.length ≤ i),
      List.take_of_length_le (by omega : wav.length ≤ i)]
    simp [compactGo]
  | succ fuel ih =>
    intro i flux std wav h1 h2 hf
    have hi : i < flux.length := by omega
    have his : i < std.length := by omega
    have hiw : i < wav.length := by omega
    rw [List.drop_eq_getElem_cons hi, List.drop_eq_getElem_cons his,
      List.drop_eq_getElem_cons hiw, filtTriple_cons]
    by_cases hs : flux[i] = -1
    · have hgetD : flux.getD i 0 = -1 := by
        rw [List.getD_eq_getElem _ _ hi]
        exact hs
      rw [if_pos hs]
      show compactGo (fuel + 1) i flux std wav = _
      unfold compactGo pyDel
      rw [if_pos hgetD, if_pos hi, if_pos his, if_pos hiw]
      show compactGo fuel i (flux.eraseIdx i) (std.eraseIdx i) (wav.eraseIdx i) = _
      rw [ih i (flux.eraseIdx i) (std.eraseIdx i) (wav.eraseIdx i)
        (by simp [List.length_eraseIdx, hi, his, h1])
        (by simp [List.length_eraseIdx, hi, hiw, h2])
        (by simp [List.length_eraseIdx, hi]; omega)]
      rw [take_eraseIdx_self _ _ hi, take_eraseIdx_self _ _ his, take_eraseIdx_self _ _ hiw,
        drop_eraseIdx_self _ _ hi, drop_eraseIdx_self _ _ his, drop_eraseIdx_self _ _ hiw]
    · have hgetD : ¬ flux.getD i 0 = -1 := by
        rw [List.getD_eq_getElem _ _ hi]
        exact hs
      rw [if_neg hs]
      show compactGo (fuel + 1) i flux std wav = _
      unfold compactGo
      rw [if_neg hgetD]
      rw [ih (i + 1) flux std wav h1 h2 (by omega)]
      have ht : ∀ (l : List ℚ) (hl : i < l.length),
          l.take (i + 1) = l.take i ++ [l[i]] := by
        intro l hl
        rw [List.take_succ, List.getElem?_eq_getElem hl]
        rfl
      rw [ht flux hi, ht std his, ht wav hiw, List.append_assoc, List.append_assoc,
        List.append_assoc]
      rfl

end Mast

namespace Mast

theorem keepFlux_nil : keepFlux [] = [] := by
  rfl

theorem keepFlux_cons (f : ℚ) (fs : List ℚ) :
    keepFlux (f :: fs) = if f = -1 then keepFlux fs else f :: keepFlux fs := by
  unfold keepFlux
  by_cases h : f = -1 <;> simp [List.filter, h]

theorem keepOther_nil (other : List ℚ) : keepOther [] other = [] := by
  rfl

theorem keepOther_cons (f : ℚ) (fs : List ℚ) (w : ℚ) (ws : List ℚ) :
    keepOther (f :: fs) (w :: ws) =
      if f = -1 then keepOther fs ws else w :: keepOther fs ws := by
  unfold keepOther
  by_cases h : f = -1 <;> simp [List.filter, h, List.zip]

theorem filtTriple_eq_keep :
    ∀ (flux std wav : List ℚ), flux.length = std.length → flux.length = wav.length →
      filtTriple flux std wav = (keepOther flux wav, keepFlux flux, keepOther flux std) := by
  intro flux
  induction flux with
  | nil =>
    intro std wav h1 h2
    simp only [List.length_nil] at h1 h2
    have hstd : std = [] := List.eq_nil_of_length_eq_zero h1.symm
    have hwav : wav = [] := List.eq_nil_of_length_eq_zero h2.symm
    subst hstd hwav
    rfl
  | cons f fs ih =>
    intro std wav h1 h2
    cases std with
    | nil => simp at h1
    | cons s ss =>
      cases wav with
      | nil => simp at h2
      | cons w ws =>
        rw [filtTriple_cons, keepFlux_cons, keepOther_cons, keepOther_cons,
          ih ss ws (by simpa using h1) (by simpa using h2)]
        by_cases h : f = -1 <;> simp [h]

theorem keepOther_self (flux : List ℚ) : keepOther flux flux = keepFlux flux := by
  induction flux with
  | nil => rfl
  | cons f fs ih => rw [keepOther_cons, keepFlux_cons, ih]

theorem keepOther_length (flux other : List ℚ) (h : flux.length = other.length) :
    (keepOther flux other).length = (keepFlux flux).length := by
  induction flux generalizing other with
  | nil => rfl
  | cons f fs ih =>
    cases other with
    | nil => simp at h
    | cons w ws =>
      rw [keepOther_cons, keepFlux_cons]
      have := ih ws (by simpa using h)
      by_cases hf : f = -1 <;> simp [hf, this]

theorem keepFlux_all_sentinel (flux : List ℚ) (h : ∀ x ∈ flux, x = -1) :
    keepFlux flux = [] := by
  induction flux with
  | nil => rfl
  | cons f fs ih =>
    rw [keepFlux_cons, if_pos (h f (by simp))]
    exact ih (fun x hx => h x (by simp [hx]))

theorem keepOther_all_sentinel (flux other : List ℚ) (h : ∀ x ∈ flux, x = -1) :
    keepOther flux other = [] := by
  induction flux generalizing other with
  | nil => rfl
  | cons f fs ih =>
    cases other with
    | nil => rfl
    | cons w ws =>
      rw [keepOther_cons, if_pos (h f (by simp))]
      exact ih ws (fun x hx => h x (by simp [hx]))

theorem compact_eq_keep (flux std wav : List ℚ) (h1 : flux.length = std.length)
    (h2 : flux.length = wav.length) :
    compact flux std wav = .ok (keepOther flux wav, keepFlux flux, keepOther flux std) := by
  unfold compact
  rw [compactGo_eq flux.length 0 flux std wav h1 h2 (by omega)]
  simp [filtTriple_eq_keep flux std wav h1 h2]

end Mast

namespace Mast

theorem keptIdx_cons (f : ℚ) (fs : List ℚ) :
    keptIdx (f :: fs) =
      if f = -1 then (keptIdx fs).map Nat.succ else 0 :: (keptIdx fs).map Nat.succ := by
  unfold keptIdx
  rw [List.length_cons, List.range_succ_eq_map, List.filter_cons]
  have hcomp : (fun i => decide ((f :: fs).getD i 0 ≠ -1)) ∘ Nat.succ =
      fun i => decide (fs.getD i 0 ≠ -1) := by
    funext i
    simp [Function.comp, List.getD_cons_succ]
  rw [List.filter_map, hcomp]
  by_cases h : f = -1 <;> simp [h]

theorem keptIdx_map_getD :
    ∀ (flux other : List ℚ), flux.length = other.length →
      (keptIdx flux).map (fun i => other.getD i 0) = keepOther flux other := by
  intro flux
  induction flux with
  | nil =>
    intro other h
    rfl
  | cons f fs ih =>
    intro other h
    cases other with
    | nil => simp at h
    | cons w ws =>
      rw [keptIdx_cons, keepOther_cons]
      have hmap : ((keptIdx fs).map Nat.succ).map (fun i => (w :: ws).getD i 0) =
          (keptIdx fs).map (fun i => ws.getD i 0) := by
        rw [List.map_map]
        exact List.map_congr_left (fun i _ => by simp [Function.comp, List.getD_cons_succ])
      by_cases hf : f = -1
      · rw [if_pos hf, if_pos hf, hmap, ih ws (by simpa using h)]
      · rw [if_neg hf, if_neg hf]
        simp only [List.map_cons, List.getD_cons_zero]
        rw [hmap, ih ws (by simpa using h)]

theorem keptIdx_map_getD_self (flux : List ℚ) :
    (keptIdx flux).map (fun i => flux.getD i 0) = keepFlux flux := by
  rw [keptIdx_map_getD flux flux rfl, keepOther_self]

theorem compactGo_no_sentinel (fuel : ℕ) :
    ∀ (i : ℕ) (flux std wav w f s : List ℚ),
      fuel = flux.length - i →
      compactGo fuel i flux std wav = .ok (w, f, s) →
      (∀ j, j < i → flux.getD j 0 ≠ -1) →
      ∀ x ∈ f, x ≠ -1 := by
  induction fuel with
  | zero =>
    intro i flux std wav w f s hf h hpre x hx
    unfold compactGo at h
    cases h
    obtain ⟨n, hn, hxn⟩ := List.mem_iff_getElem.mp hx
    have := hpre n (by omega)
    rw [List.getD_eq_getElem _ _ hn] at this
    rw [hxn] at this
    exact this
  | succ fuel ih =>
    intro i flux std wav w f s hf h hpre
    have hi : i < flux.length := by omega
    unfold compactGo at h
    by_cases hs : flux.getD i 0 = -1
    · rw [if_pos hs] at h
      unfold pyDel at h
      rw [if_pos hi] at h
      by_cases his : i < std.length
      · rw [if_pos his] at h
        by_cases hiw : i < wav.length
        · rw [if_pos hiw] at h
          refine ih i (flux.eraseIdx i) (std.eraseIdx i) (wav.eraseIdx i) w f s
            (by simp [List.length_eraseIdx, hi]; omega) h ?_
          intro j hj
          rw [getD_eraseIdx_of_lt flux i j 0 hj]
          exact hpre j hj
        · rw [if_neg hiw] at h
          cases h
      · rw [if_neg his] at h
        cases h
    · rw [if_neg hs] at h
      refine ih (i + 1) flux std wav w f s (by omega) h ?_
      intro j hj
      rcases Nat.lt_succ_iff_lt_or_eq.mp hj with hj2 | hj2
      · exact hpre j hj2
      · rw [hj2]
        exact hs

end Mast

namespace Mast

/-- C4: when the three arrays are equal-length at loop entry, the in-place
deletion loop of lines 219-228 is exactly the projection of all three arrays
through the single retained-index list of positions whose flux is not the
sentinel -1 (order preserved, no index skipped or double-processed). -/
theorem c4_compaction_is_projection (flux flux_std_dev wav : List ℚ)
    (h1 : flux.length = flux_std_dev.length) (h2 : flux.length = wav.length) :
    compact flux flux_std_dev wav =
      .ok ((keptIdx flux).map (fun i => wav.getD i 0),
           (keptIdx flux).map (fun i => flux.getD i 0),
           (keptIdx flux).map (fun i => flux_std_dev.getD i 0)) := by
  rw [compact_eq_keep flux flux_std_dev wav h1 h2, keptIdx_map_getD flux wav h2,
    keptIdx_map_getD flux flux_std_dev h1, keptIdx_map_getD_self]

/-- Witness for C4 at concrete equal-length lists with one sentinel. -/
theorem c4_compaction_is_projection_witness :
    ([(1 : ℚ), -1, 3].length = [(4 : ℚ), 5, 6].length) ∧
    ([(1 : ℚ), -1, 3].length = [(7 : ℚ), 8, 9].length) ∧
    compact [(1 : ℚ), -1, 3] [(4 : ℚ), 5, 6] [(7 : ℚ), 8, 9] =
      .ok ((keptIdx [(1 : ℚ), -1, 3]).map (fun i => [(7 : ℚ), 8, 9].getD i 0),
           (keptIdx [(1 : ℚ), -1, 3]).map (fun i => [(1 : ℚ), -1, 3].getD i 0),
           (keptIdx [(1 : ℚ), -1, 3]).map (fun i => [(4 : ℚ), 5, 6].getD i 0)) := by
  exact ⟨by decide, by decide,
    c4_compaction_is_projection [(1 : ℚ), -1, 3] [(4 : ℚ), 5, 6] [(7 : ℚ), 8, 9]
      (by decide) (by decide)⟩

/-- C1 amended: every accepted HighDispersion record returns a flux sequence
free of the sentinel -1 (the LowDispersion branch performs no sentinel
removal, see the counterexample). -/
theorem c1_amended_high_no_sentinel (data : List (List Char)) (w f s : List ℚ)
    (hc : classify data = .ok Layout.high)
    (hd : GetIUEDataset data = .ok (w, f, s)) :
    ∀ x ∈ f, x ≠ -1 := by
  unfold GetIUEDataset at hd
  rw [hc] at hd
  unfold decodeHigh at hd
  cases h0 : colParse (bodyHigh data) 0 with
  | error e =>
    rw [h0] at hd
    cases hd
  | ok flux =>
    rw [h0] at hd
    cases h1 : colParse (bodyHigh data) 1 with
    | error e =>
      rw [h1] at hd
      cases hd
    | ok std =>
      rw [h1] at hd
      cases h2 : colParse (bodyHigh data) 2 with
      | error e =>
        rw [h2] at hd
        cases hd
      | ok bg =>
        rw [h2] at hd
        cases hp : hiParams ((data.take 19).getLastD []) with
        | error e =>
          rw [hp] at hd
          cases hd
        | ok t =>
          rw [hp] at hd
          obtain ⟨ws2, wd2, km2⟩ := t
          have hd2 : compactGo flux.length 0 flux std (hiWavList ws2 wd2 km2) =
              .ok (w, f, s) := hd
          exact compactGo_no_sentinel flux.length 0 flux std (hiWavList ws2 wd2 km2) w f s
            (by omega) hd2 (fun j hj => absurd hj (Nat.not_lt_zero j))

/-- Witness for the amended C1 at a concrete HighDispersion record with one
sentinel sample and one good sample. -/
theorem c1_amended_high_no_sentinel_witness :
    classify exampleHighMixed = .ok Layout.high ∧
    GetIUEDataset exampleHighMixed = .ok ([(1000 : ℚ)], [(1 : ℚ)], [(1 / 10 : ℚ)]) ∧
    ∀ x ∈ [(1 : ℚ)], x ≠ -1 := by
  exact ⟨by rfl, by with_unfolding_all rfl,
    c1_amended_high_no_sentinel exampleHighMixed [(1000 : ℚ)] [(1 : ℚ)] [(1 / 10 : ℚ)]
      (by rfl) (by with_unfolding_all rfl)⟩

end Mast

namespace Mast

/-- C2 amended: the three returned sequences have equal length in every
accepted LowDispersion record, and in accepted HighDispersion records
whenever the header-derived k_max equals the number of body lines; (the
counterexample shows equality fails for accepted HighDispersion records
whose k_max differs from the body-line count). -/
theorem c2_amended_lengths :
    (∀ (data : List (List Char)) (w f s : List ℚ), classify data = .ok Layout.low →
      GetIUEDataset data = .ok (w, f, s) →
      w.length = f.length ∧ f.length = s.length) ∧
    (∀ (data : List (List Char)) (w f s : List ℚ) (wave_start wave_delta : ℚ) (k_max : ℤ),
      classify data = .ok Layout.high →
      hiParams ((data.take 19).getLastD []) = .ok (wave_start, wave_delta, k_max) →
      k_max.toNat = ((data.drop 19).dropLast).length →
      GetIUEDataset data = .ok (w, f, s) →
      w.length = f.length ∧ f.length = s.length) := by
  constructor
  · intro data w f s hc hd
    unfold GetIUEDataset at hd
    rw [hc] at hd
    unfold decodeLow at hd
    cases h0 : colParse (bodyLow data) 0 with
    | error e =>
      rw [h0] at hd
      cases hd
    | ok a =>
      rw [h0] at hd
      cases h1 : colParse (bodyLow data) 1 with
      | error e =>
        rw [h1] at hd
        cases hd
      | ok b =>
        rw [h1] at hd
        cases h2 : colParse (bodyLow data) 2 with
        | error e =>
          rw [h2] at hd
          cases hd
        | ok c =>
          rw [h2] at hd
          cases hd
          constructor
          · rw [colParse_ok_length _ _ _ h0, colParse_ok_length _ _ _ h1]
          · rw [colParse_ok_length _ _ _ h1, colParse_ok_length _ _ _ h2]
  · intro data w f s wave_start wave_delta k_max hc hp hk hd
    unfold GetIUEDataset at hd
    rw [hc] at hd
    unfold decodeHigh at hd
    cases h0 : colParse (bodyHigh data) 0 with
    | error e =>
      rw [h0] at hd
      cases hd
    | ok flux =>
      rw [h0] at hd
      cases h1 : colParse (bodyHigh data) 1 with
      | error e =>
        rw [h1] at hd
        cases hd
      | ok std =>
        rw [h1] at hd
        cases h2 : colParse (bodyHigh data) 2 with
        | error e =>
          rw [h2] at hd
          cases hd
        | ok bg =>
          rw [h2] at hd
          rw [hp] at hd
          have hd2 : compact flux std (hiWavList wave_start wave_delta k_max) =
              .ok (w, f, s) := hd
          have hl1 : flux.length = std.length := by
            rw [colParse_ok_length _ _ _ h0, colParse_ok_length _ _ _ h1]
          have hl2 : flux.length = (hiWavList wave_start wave_delta k_max).length := by
            rw [colParse_ok_length _ _ _ h0]
            unfold hiWavList bodyHigh
            rw [List.length_map, List.length_map, List.length_range]
            exact hk.symm
          rw [compact_eq_keep flux std _ hl1 hl2] at hd2
          cases hd2
          exact ⟨keepOther_length flux _ hl2, (keepOther_length flux _ hl1).symm⟩

/-- Witness for the amended C2 at a concrete HighDispersion record whose
k_max (2) matches its two body lines. -/
theorem c2_amended_lengths_witness :
    classify exampleHighMixed = .ok Layout.high ∧
    GetIUEDataset exampleHighMixed = .ok ([(1000 : ℚ)], [(1 : ℚ)], [(1 / 10 : ℚ)]) ∧
    ([(1000 : ℚ)].length = [(1 : ℚ)].length ∧ [(1 : ℚ)].length = [(1 / 10 : ℚ)].length) := by
  refine ⟨by rfl, by with_unfolding_all rfl, ?_⟩
  exact c2_amended_lengths.2 exampleHighMixed [(1000 : ℚ)] [(1 : ℚ)] [(1 / 10 : ℚ)]
    1000 2 2 (by rfl) (by with_unfolding_all rfl) (by decide) (by with_unfolding_all rfl)

/-- C8: a HighDispersion record whose body parses, whose header parses, whose
k_max matches the body-line count, and whose every flux sample is the
sentinel -1 decodes to three empty sequences rather than an error. -/
theorem c8_all_sentinel_empty (data : List (List Char)) (flux std bg : List ℚ)
    (wave_start wave_delta : ℚ) (k_max : ℤ)
    (hc : classify data = .ok Layout.high)
    (h0 : colParse (bodyHigh data) 0 = .ok flux)
    (h1 : colParse (bodyHigh data) 1 = .ok std)
    (h2 : colParse (bodyHigh data) 2 = .ok bg)
    (hp : hiParams ((data.take 19).getLastD []) = .ok (wave_start, wave_delta, k_max))
    (hall : ∀ x ∈ flux, x = -1)
    (hk : flux.length = k_max.toNat) :
    GetIUEDataset data = .ok ([], [], []) := by
  unfold GetIUEDataset
  rw [hc]
  unfold decodeHigh
  rw [h0, h1, h2, hp]
  show compact flux std (hiWavList wave_start wave_delta k_max) = .ok ([], [], [])
  have hl1 : flux.length = std.length := by
    rw [colParse_ok_length _ _ _ h0, colParse_ok_length _ _ _ h1]
  have hl2 : flux.length = (hiWavList wave_start wave_delta k_max).length := by
    unfold hiWavList
    rw [List.length_map, List.length_range]
    exact hk
  rw [compact_eq_keep flux std _ hl1 hl2, keepFlux_all_sentinel flux hall,
    keepOther_all_sentinel flux _ hall, keepOther_all_sentinel flux _ hall]

/-- Witness for C8 at the concrete all-sentinel HighDispersion record. -/
theorem c8_all_sentinel_empty_witness :
    GetIUEDataset exampleHighAllSentinel = .ok ([], [], []) := by
  exact c8_all_sentinel_empty exampleHighAllSentinel [-1, -1] [(1 / 10 : ℚ), 1 / 5]
    [(0 : ℚ), 0] 1000 2 2 (by rfl) (by with_unfolding_all rfl) (by with_unfolding_all rfl)
    (by with_unfolding_all rfl) (by with_unfolding_all rfl) (by decide) (by decide)

/-- C3: for every header line whose three parameters parse (start wavelength
after the first plus sign and before the following comma, delta after the
last equals sign before the first star, k_max after the last comma plus one),
the reconstructed wavelength list has k_max entries, its entry at 0-based
index i is start + i * delta, and consecutive entries differ by exactly the
header-derived delta. -/
theorem c3_wavelength_reconstruction (wave_string : List Char)
    (wave_start wave_delta : ℚ) (k_max : ℤ)
    (hp : hiParams wave_string = .ok (wave_start, wave_delta, k_max)) :
    (hiWavList wave_start wave_delta k_max).length = k_max.toNat ∧
    (∀ i : ℕ, i < k_max.toNat →
      (hiWavList wave_start wave_delta k_max).getD i 0 =
        wave_start + (i : ℚ) * wave_delta) ∧
    (∀ i : ℕ, i + 1 < k_max.toNat →
      (hiWavList wave_start wave_delta k_max).getD (i + 1) 0 -
        (hiWavList wave_start wave_delta k_max).getD i 0 = wave_delta) := by
  have hlen : (hiWavList wave_start wave_delta k_max).length = k_max.toNat := by
    unfold hiWavList
    rw [List.length_map, List.length_range]
  have hval : ∀ i : ℕ, i < k_max.toNat →
      (hiWavList wave_start wave_delta k_max).getD i 0 =
        wave_start + (i : ℚ) * wave_delta := by
    intro i hi
    unfold hiWavList
    rw [List.getD_eq_getElem _ _ (by rw [List.length_map, List.length_range]; exact hi)]
    rw [List.getElem_map, List.getElem_range]
    ring
  refine ⟨hlen, hval, ?_⟩
  intro i hi
  rw [hval (i + 1) hi, hval i (by omega)]
  push_cast
  ring

/-- Witness for C3 at the concrete header line of the mismatch example. -/
theorem c3_wavelength_reconstruction_witness :
    hiParams (("w+1000.0, d=2.0 *, 4").data) = .ok (1000, 2, 5) ∧
    (2 : ℕ) < (5 : ℤ).toNat ∧
    (hiWavList 1000 2 5).getD 2 0 = 1000 + (2 : ℚ) * 2 := by
  refine ⟨by with_unfolding_all rfl, by decide, ?_⟩
  exact (c3_wavelength_reconstruction (("w+1000.0, d=2.0 *, 4").data) 1000 2 5
    (by with_unfolding_all rfl)).2.1 2 (by decide)

end Mast

namespace Mast

theorem decodeLow_error_of_col (data : List (List Char)) (i : ℕ) (e2 : PyErr)
    (hi : i < 3) (hcol : colParse (bodyLow data) i = .error e2) :
    ∃ e, decodeLow data = .error e := by
  unfold decodeLow
  cases h0 : colParse (bodyLow data) 0 with
  | error e => exact ⟨e, rfl⟩
  | ok a =>
    cases h1 : colParse (bodyLow data) 1 with
    | error e => exact ⟨e, rfl⟩
    | ok b =>
      cases h2 : colParse (bodyLow data) 2 with
      | error e => exact ⟨e, rfl⟩
      | ok c =>
        exfalso
        interval_cases i
        · rw [h0] at hcol
          cases hcol
        · rw [h1] at hcol
          cases hcol
        · rw [h2] at hcol
          cases hcol

theorem decodeHigh_error_of_col (data : List (List Char)) (i : ℕ) (e2 : PyErr)
    (hi : i < 3) (hcol : colParse (bodyHigh data) i = .error e2) :
    ∃ e, decodeHigh data = .error e := by
  unfold decodeHigh
  cases h0 : colParse (bodyHigh data) 0 with
  | error e => exact ⟨e, rfl⟩
  | ok a =>
    cases h1 : colParse (bodyHigh data) 1 with
    | error e => exact ⟨e, rfl⟩
    | ok b =>
      cases h2 : colParse (bodyHigh data) 2 with
      | error e => exact ⟨e, rfl⟩
      | ok c =>
        exfalso
        interval_cases i
        · rw [h0] at hcol
          cases hcol
        · rw [h1] at hcol
          cases hcol
        · rw [h2] at hcol
          cases hcol

/-- C7 amended: in both branches, a body line whose required token (column 0,
1 or 2) is present but not numeric forces the whole decode to return an
error — a partial or successful-so-far table is never returned.  The error is
the ValueError of `float(...)`, which carries the offending token text but no
line index, and no MalformedRecordError exists in the code (see the
counterexample). -/
theorem c7_amended_parse_failure :
    (∀ (data : List (List Char)) (line tokv : List Char) (i : ℕ),
      classify data = .ok Layout.low → line ∈ bodyLow data → i < 3 →
      (pySplit (' ') line).get? i = some tokv → pyFloat tokv = none →
      ∃ e, GetIUEDataset data = .error e) ∧
    (∀ (data : List (List Char)) (line tokv : List Char) (i : ℕ),
      classify data = .ok Layout.high → line ∈ bodyHigh data → i < 3 →
      (pySplit (' ') line).get? i = some tokv → pyFloat tokv = none →
      ∃ e, GetIUEDataset data = .error e) := by
  constructor
  · intro data line tokv i hc hmem hi htok hbad
    have hft : floatTok line i = .error (.valueError tokv) := by
      simp only [floatTok, htok, hbad]
    obtain ⟨e2, hcol⟩ := colParse_error_of_mem (bodyLow data) i line _ hmem hft
    obtain ⟨e, hde⟩ := decodeLow_error_of_col data i e2 hi hcol
    refine ⟨e, ?_⟩
    unfold GetIUEDataset
    rw [hc]
    show decodeLow data = .error e
    exact hde
  · intro data line tokv i hc hmem hi htok hbad
    have hft : floatTok line i = .error (.valueError tokv) := by
      simp only [floatTok, htok, hbad]
    obtain ⟨e2, hcol⟩ := colParse_error_of_mem (bodyHigh data) i line _ hmem hft
    obtain ⟨e, hde⟩ := decodeHigh_error_of_col data i e2 hi hcol
    refine ⟨e, ?_⟩
    unfold GetIUEDataset
    rw [hc]
    show decodeHigh data = .error e
    exact hde

/-- Witness for the amended C7 at a concrete LowDispersion record whose
second body token is not numeric. -/
theorem c7_amended_parse_failure_witness :
    classify exampleBadToken2 = .ok Layout.low ∧
    (("1.0 xyz 2.0").data ∈ bodyLow exampleBadToken2) ∧
    (pySplit (' ') (("1.0 xyz 2.0").data)).get? 1 = some (("xyz").data) ∧
    pyFloat (("xyz").data) = none ∧
    ∃ e, GetIUEDataset exampleBadToken2 = .error e := by
  refine ⟨by rfl, by decide, by rfl, by rfl, ?_⟩
  exact c7_amended_parse_failure.1 exampleBadToken2 (("1.0 xyz 2.0").data) (("xyz").data) 1
    (by rfl) (by decide) (by decide) (by rfl) (by rfl)

theorem pyStrip_sandwich (s : List Char) :
    ∃ pre suf, s = pre ++ pyStrip s ++ suf ∧
      (∀ c ∈ pre, isPySpace c = true) ∧ (∀ c ∈ suf, isPySpace c = true) := by
  refine ⟨s.takeWhile isPySpace,
    ((s.dropWhile isPySpace).reverse.takeWhile isPySpace).reverse, ?_, ?_, ?_⟩
  · have hd : s.dropWhile isPySpace =
        pyStrip s ++ ((s.dropWhile isPySpace).reverse.takeWhile isPySpace).reverse := by
      have h2 := List.takeWhile_append_dropWhile isPySpace (s.dropWhile isPySpace).reverse
      calc s.dropWhile isPySpace
          = ((s.dropWhile isPySpace).reverse).reverse := by rw [List.reverse_reverse]
        _ = (List.takeWhile isPySpace (s.dropWhile isPySpace).reverse ++
              List.dropWhile isPySpace (s.dropWhile isPySpace).reverse).reverse := by rw [h2]
        _ = (List.dropWhile isPySpace (s.dropWhile isPySpace).reverse).reverse ++
              (List.takeWhile isPySpace (s.dropWhile isPySpace).reverse).reverse := by
              rw [List.reverse_append]
        _ = pyStrip s ++
              ((s.dropWhile isPySpace).reverse.takeWhile isPySpace).reverse := rfl
    conv_lhs => rw [← List.takeWhile_append_dropWhile isPySpace s]
    rw [List.append_assoc, ← hd]
  · intro c hc
    exact List.mem_takeWhile_imp hc
  · intro c hc
    rw [List.mem_reverse] at hc
    exact List.mem_takeWhile_imp hc

/-- C9 amended: the fetch stage splits on newline boundaries dropping no line
and preserving order (line i of the output comes from line i of the split),
and each returned line is the original line with whitespace removed from BOTH
ends (leading whitespace is removed too, see the counterexample). -/
theorem c9_amended_split_and_strip (text : List Char) :
    (fetchLines text).length = (pySplit ('\n') text).length ∧
    ∀ i, i < (pySplit ('\n') text).length →
      ∃ pre suf,
        (pySplit ('\n') text).getD i [] =
          pre ++ (fetchLines text).getD i [] ++ suf ∧
        (∀ c ∈ pre, isPySpace c = true) ∧ (∀ c ∈ suf, isPySpace c = true) := by
  constructor
  · unfold fetchLines
    rw [List.length_map]
  · intro i hi
    have hget : (fetchLines text).getD i [] =
        pyStrip ((pySplit ('\n') text).getD i []) := by
      unfold fetchLines
      rw [List.getD_eq_getElem?_getD, List.getD_eq_getElem?_getD, List.getElem?_map,
        List.getElem?_eq_getElem hi]
      rfl
    rw [hget]
    exact pyStrip_sandwich ((pySplit ('\n') text).getD i [])

/-- Witness for the amended C9 at the concrete two-line payload with leading
and trailing whitespace. -/
theorem c9_amended_split_and_strip_witness :
    (0 : ℕ) < (pySplit ('\n') ((" a\nb").data)).length ∧
    ∃ pre suf,
      (pySplit ('\n') ((" a\nb").data)).getD 0 [] =
        pre ++ (fetchLines ((" a\nb").data)).getD 0 [] ++ suf ∧
      (∀ c ∈ pre, isPySpace c = true) ∧ (∀ c ∈ suf, isPySpace c = true) := by
  exact ⟨by decide, (c9_amended_split_and_strip ((" a\nb").data)).2 0 (by decide)⟩

end Mast
